import Mathlib

/-!
Verification development for the DynamoDB-backed FHIR persistence core.

The definitions below are a shallow embedding of the TypeScript sources:
  - src/src/dataServices/dynamoDbUtil.ts          (DynamoDbUtil)
  - src/src/dataServices/dynamoDbHelper.ts        (DynamoDbHelper)
  - src/src/dataServices/dynamoDbBundleServiceHelper.ts
  - src/unnamed/part_001 and part_002             (DynamoDbParamBuilder)
  - src/src/dataServices/hybridDataService.ts and src/unnamed/part_004
JavaScript objects are modelled as association lists of string keys and
JSON-like values, JS strings as Lean strings (lists of characters where
index arithmetic matters), and thrown exceptions as Option/Except.
-/

namespace DDB

/-- Document lifecycle states, from the documentStatus enum used throughout
the data services. -/
inductive DocStatus where
  | AVAILABLE
  | LOCKED
  | PENDING
  | PENDING_DELETE
  | DELETED
deriving DecidableEq, Repr

/-- JSON-like stored values. Timestamps and version numbers are modelled as
naturals; document statuses keep their enum form. -/
inductive Val where
  | vnull
  | vbool (b : Bool)
  | vnum (n : Nat)
  | vstr (s : String)
  | vstatus (st : DocStatus)
  | varr (elems : List Val)
  | vobj (fields : List (String × Val))

/-- A JavaScript object: an association list with (in practice) unique keys. -/
abbrev Obj := List (String × Val)

/-- First value stored under key `k`, the JS property read `o[k]`. -/
def lookupField (o : Obj) (k : String) : Option Val :=
  match o with
  | [] => none
  | (k2, v) :: rest => if k2 = k then some v else lookupField rest k

/-- JS `delete o[k]`: drop the binding for `k`. -/
def eraseField (o : Obj) (k : String) : Obj :=
  o.filter (fun p => p.1 != k)

/-- JS property assignment `o[k] = v`: overwrite in place when the key is
present, append otherwise. -/
def setField (o : Obj) (k : String) (v : Val) : Obj :=
  if o.any (fun p => p.1 == k) then
    o.map (fun p => if p.1 = k then (k, v) else p)
  else
    o ++ [(k, v)]

/-- documentStatus of a stored item, when present and well-typed; any other
shape behaves like the TS cast `<DOCUMENT_STATUS>item[DOCUMENT_STATUS_FIELD]`
falling through every comparison. -/
def statusOf (item : Obj) : Option DocStatus :=
  match lookupField item "documentStatus" with
  | some (.vstatus st) => some st
  | _ => none

/-- Modelled from the spec: `SEPARATOR` lives in src/constants.ts which is not
under src/; the spec fixes it as "a configurable single character not
appearing in ids (default `_`)". -/
def SEPARATOR : Char := '_'

/-- Boolean prefix test on character lists (the anchored comparison JS
`indexOf` performs at each candidate position). -/
def leadsWith : List Char → List Char → Bool
  | [], _ => true
  | _ :: _, [] => false
  | a :: as, b :: bs => a = b && leadsWith as bs

/-- JS `s.indexOf(t)`: index of the first occurrence of `t` in `s`, if any. -/
def firstOcc (t s : List Char) : Option Nat :=
  match s with
  | [] => if t.isEmpty then some 0 else none
  | _ :: s2 => if leadsWith t s then some 0 else (firstOcc t s2).map (fun n => n + 1)

/-- Core of `DynamoDbUtil.cleanItemId`: truncate the composite id at the first
occurrence of the tenant id (`id.substring(0, id.indexOf(tenantId))`),
unchanged when the tenant id does not occur. -/
def cleanIdChars (compositeId tid : List Char) : List Char :=
  match firstOcc tid compositeId with
  | some i => compositeId.take i
  | none => compositeId

/-- JS `id.split(SEPARATOR)[0]` for the single-character separator. -/
def splitHead (s : List Char) : List Char :=
  s.takeWhile (fun c => c != SEPARATOR)

/-- `projectionExpression.search(TENANT_ID_FIELD) !== -1` in
`DynamoDbUtil.cleanItem`: substring search for "tenantId". -/
def projectionMentionsTenantId (projectionExpression : Option String) : Bool :=
  match projectionExpression with
  | none => false
  | some p => (firstOcc "tenantId".data p.data).isSome

/-- `DynamoDbUtil.hasTenantId`. -/
def hasTenantId (item : Obj) : Bool :=
  (lookupField item "tenantId").isSome

/-- `DynamoDbUtil.cleanItemId` on the object level; `none` models the TS crash
when `item.id` is missing (and the unmodelled coercion of a non-string
tenant id). -/
def cleanItemId (item : Obj) : Option Obj :=
  match lookupField item "tenantId" with
  | some (.vstr t) =>
    match lookupField item "id" with
    | some (.vstr i) => some (setField item "id" (.vstr (String.mk (cleanIdChars i.data t.data))))
    | _ => none
  | some _ => none
  | none => some item

/-- `DynamoDbUtil.cleanItem`: strip the four internal fields, split the tenant
id back out of the id (dropping the tenantId field unless the projection
mentions it), then truncate the id at the first SEPARATOR. `none` models the
TS crash when the id is missing or non-string. -/
def cleanItem (item : Obj) (projectionExpression : Option String) : Option Obj :=
  let c :=
    eraseField (eraseField (eraseField (eraseField item "documentStatus") "lockEndTs") "vid")
      "_references"
  let step : Option Obj :=
    if hasTenantId c then
      match cleanItemId c with
      | none => none
      | some c2 =>
        some (if projectionMentionsTenantId projectionExpression then c2
              else eraseField c2 "tenantId")
    else some c
  match step with
  | none => none
  | some c3 =>
    match lookupField c3 "id" with
    | some (.vstr i) => some (setField c3 "id" (.vstr (String.mk (splitHead i.data))))
    | _ => none

/-- Selection logic of `DynamoDbHelper.getMostRecentUserReadableResource` over
the (up to 2) most recent versions returned by the query; `.error ()` is the
thrown ResourceNotFoundError (the empty case is the length-0 check inside
`getMostRecentResources`). -/
def selectUserReadableItem (items : List Obj) : Except Unit Obj :=
  match items with
  | [] => .error ()
  | top :: rest =>
    match statusOf top with
    | some .DELETED => .error ()
    | some .AVAILABLE => .ok top
    | some .PENDING_DELETE => .ok top
    | some .LOCKED => .ok top
    | some .PENDING =>
      match rest with
      | second :: _ => .ok second
      | [] => .error ()
    | none => .error ()

/-- `DynamoDbHelper.getMostRecentUserReadableResource`: select the readable
version, then clean it; the outer `none` models the TS crash when `cleanItem`
would crash. -/
def getMostRecentUserReadableResource (items : List Obj) : Option (Except Unit Obj) :=
  match selectUserReadableItem items with
  | .error e => some (.error e)
  | .ok item => (cleanItem item none).map (fun c => .ok c)

/-- `DynamoDbParamBuilder.LOCK_DURATION_IN_MS = 35 * 1000`. -/
def LOCK_DURATION_IN_MS : Nat := 35 * 1000

/-- Attribute names that can appear in the builder's condition expressions. -/
inductive FieldRef where
  | resourceTypeF
  | documentStatusF
  | lockEndTsF
deriving DecidableEq, Repr

/-- The condition-expression fragment language generated by
`buildUpdateDocumentStatusParam` (equality with a string or status constant,
a less-than comparison with a timestamp, conjunction, disjunction). -/
inductive Cond where
  | fieldEqStr (f : FieldRef) (v : String)
  | fieldEqStatus (f : FieldRef) (v : DocStatus)
  | fieldLtNum (f : FieldRef) (v : Nat)
  | and (a b : Cond)
  | or (a b : Cond)

/-- The stored attributes a status-transition condition can observe. -/
structure StoredMeta where
  resourceType : String
  documentStatus : DocStatus
  lockEndTs : Nat

/-- Field dereference for condition evaluation. -/
def readFieldStr (m : StoredMeta) : FieldRef → Option String
  | .resourceTypeF => some m.resourceType
  | _ => none

/-- Status dereference for condition evaluation. -/
def readFieldStatus (m : StoredMeta) : FieldRef → Option DocStatus
  | .documentStatusF => some m.documentStatus
  | _ => none

/-- Numeric dereference for condition evaluation. -/
def readFieldNum (m : StoredMeta) : FieldRef → Option Nat
  | .lockEndTsF => some m.lockEndTs
  | _ => none

/-- DynamoDB-side evaluation of a condition expression against the stored
attributes. -/
def evalCond (c : Cond) (m : StoredMeta) : Bool :=
  match c with
  | .fieldEqStr f v => readFieldStr m f == some v
  | .fieldEqStatus f v => readFieldStatus m f == some v
  | .fieldLtNum f v =>
    match readFieldNum m f with
    | some n => n < v
    | none => false
  | .and a b => evalCond a m && evalCond b m
  | .or a b => evalCond a m || evalCond b m

/-- The conditional-update descriptor produced by
`buildUpdateDocumentStatusParam`: the composite key, the two values written by
the update expression, and the condition expression. -/
structure UpdateStatusParam where
  keyId : String
  keyVid : Nat
  newStatus : DocStatus
  newLockEndTs : Nat
  condition : Cond

/-- `DynamoDbParamBuilder.buildUpdateDocumentStatusParam` (src/unnamed/part_001
lines 23-74 and part_002 lines 21-70, identical up to tracing): compute
`futureEndTs`, append the tenant id to the key, set documentStatus and
lockEndTs, and guard with `resourceType = :resourceType`, strengthened with
the oldStatus / expired-lock disjunction when `oldStatus` is non-null.
`currentTs` stands for the `Date.now()` sampled inside the builder. -/
def buildUpdateDocumentStatusParam (oldStatus : Option DocStatus) (newStatus : DocStatus)
    (rid : String) (vid : Nat) (resourceType : String) (tenantId : Option String)
    (currentTs : Nat) : UpdateStatusParam :=
  let futureEndTs := if newStatus = .LOCKED then currentTs + LOCK_DURATION_IN_MS else currentTs
  let id := match tenantId with
    | some t => rid ++ t
    | none => rid
  let baseCond : Cond := .fieldEqStr .resourceTypeF resourceType
  let condition := match oldStatus with
    | some old =>
      .and baseCond
        (.or (.fieldEqStatus .documentStatusF old)
          (.and (.fieldLtNum .lockEndTsF currentTs)
            (.or (.fieldEqStatus .documentStatusF .LOCKED)
              (.or (.fieldEqStatus .documentStatusF .PENDING)
                (.fieldEqStatus .documentStatusF .PENDING_DELETE)))))
    | none => baseCond
  { keyId := id
    keyVid := vid
    newStatus := newStatus
    newLockEndTs := futureEndTs
    condition := condition }

/-- Decimal rendering of a natural number, JS `String(n)` / `n.toString()`. -/
def natChars (n : Nat) : List Char :=
  if n < 10 then [Char.ofNat (48 + n)]
  else natChars (n / 10) ++ [Char.ofNat (48 + n % 10)]
decreasing_by
  exact Nat.div_lt_self (by omega) (by omega)

/-- JS `parseInt(s, 10)` restricted to nonnegative decimals: parse the leading
digit run, `none` for NaN. -/
def parseIntJS (s : String) : Option Nat :=
  let ds := s.data.takeWhile (fun c => c.isDigit)
  if ds.isEmpty then none
  else some (ds.foldl (fun acc c => acc * 10 + (c.toNat - 48)) 0)

/-- Dotted-path key construction of the `flat` npm package: the child key is
the bare key at the top level and `parentKey ++ "." ++ key` below. -/
def joinKey (p : List Char) (k : List Char) : List Char :=
  if p.isEmpty then k else p ++ '.' :: k

mutual

/-- `flatten` of the flat npm package (used by
`DynamoDbUtil.prepItemForDdbInsert`): recurse through non-empty objects and
arrays building dotted keys; atoms and empty containers are leaves. -/
def flattenVal (p : List Char) : Val → List (List Char × Val)
  | .vobj [] => [(p, .vobj [])]
  | .vobj (f :: fs) => flattenFields p (f :: fs)
  | .varr [] => [(p, .varr [])]
  | .varr (x :: xs) => flattenElems p 0 (x :: xs)
  | .vnull => [(p, .vnull)]
  | .vbool b => [(p, .vbool b)]
  | .vnum n => [(p, .vnum n)]
  | .vstr s => [(p, .vstr s)]
  | .vstatus st => [(p, .vstatus st)]

/-- Flattening of an object's fields in order. -/
def flattenFields (p : List Char) : List (String × Val) → List (List Char × Val)
  | [] => []
  | (k, v) :: rest => flattenVal (joinKey p k.data) v ++ flattenFields p rest

/-- Flattening of an array's elements, keyed by decimal index. -/
def flattenElems (p : List Char) (i : Nat) : List Val → List (List Char × Val)
  | [] => []
  | v :: rest => flattenVal (joinKey p (natChars i)) v ++ flattenElems p (i + 1) rest

end

/-- The suffix JS tests with `key.endsWith(".reference")`. -/
def dotReference : List Char := '.' :: "reference".data

/-- Reference extraction of `DynamoDbUtil.prepItemForDdbInsert` lines 83-90:
flatten the resource and keep the values of every key ending in
".reference". -/
def extractReferences (resource : Obj) : List Val :=
  ((flattenFields [] resource).filter (fun p => dotReference.isSuffixOf p.1)).map (fun p => p.2)

/-- The character list of "reference". -/
def refChars : List Char := "reference".data

/-- The filtered flattened entries kept as references: keys ending in
".reference", in flattening order. -/
def refsOf (l : List (List Char × Val)) : List Val :=
  (l.filter (fun q => dotReference.isSuffixOf q.1)).map (fun q => q.2)

/-- A flattening leaf: an atom or an empty container (what the flat package
keeps as a value). -/
def leafVal : Val → Bool
  | .vobj [] => true
  | .varr [] => true
  | .vobj (_ :: _) => false
  | .varr (_ :: _) => false
  | _ => true

mutual

/-- Path-level reading of the reference extraction, below the top level:
collect every leaf sitting under an object field named "reference". -/
def collectRefs : Val → List Val
  | .vobj fs => collectRefsFields fs
  | .varr xs => collectRefsElems xs
  | _ => []

/-- Fields contribute their value when named "reference" and a leaf, plus
whatever their value contains. -/
def collectRefsFields : List (String × Val) → List Val
  | [] => []
  | (k, v) :: rest =>
    (if k.data == refChars && leafVal v then [v] else []) ++ collectRefs v
      ++ collectRefsFields rest

/-- Array elements contribute only what they contain (their key is a decimal
index, never "reference"). -/
def collectRefsElems : List Val → List Val
  | [] => []
  | v :: rest => collectRefs v ++ collectRefsElems rest

end

/-- References of a resource by path shape: everything strictly below a
top-level field (a top-level "reference" has a dotless key and is not
collected by the code). -/
def specReferences : Obj → List Val
  | [] => []
  | (_, v) :: rest => collectRefs v ++ specReferences rest

mutual

/-- Every object key anywhere in the value is non-empty and dot-free (the
regime in which dotted-path flattening is faithful to paths). -/
def keysOk : Val → Bool
  | .vobj fs => fieldsOk fs
  | .varr xs => elemsOk xs
  | _ => true

/-- Key discipline for object fields. -/
def fieldsOk : List (String × Val) → Bool
  | [] => true
  | (k, v) :: rest =>
    (!k.data.isEmpty && k.data.all (fun c => c != '.')) && keysOk v && fieldsOk rest

/-- Key discipline for array elements. -/
def elemsOk : List Val → Bool
  | [] => true
  | v :: rest => keysOk v && elemsOk rest

end

/-- The terminal dotted-path segment of a flattened key: everything after the
last dot (the whole key when it has no dot). -/
def lastSegment (k : List Char) : List Char :=
  (k.reverse.takeWhile (fun c => c != '.')).reverse

/-- The reference collection in the words of claim C7: values at every
flattened key whose terminal path segment equals "reference", including a
top-level field named "reference". -/
def claimReferences (resource : Obj) : List Val :=
  ((flattenFields [] resource).filter (fun p => lastSegment p.1 == refChars)).map
    (fun p => p.2)

/-- First value stored under `k` when it is a string. -/
def lookupStr (o : Obj) (k : String) : Option String :=
  match lookupField o k with
  | some (.vstr s) => some s
  | _ => none

/-- The freshly written meta object of a prepared item (always present by
construction; `.vnull` is unreachable). -/
def getMeta (item : Obj) : Val :=
  (lookupField item "meta").getD .vnull

/-- `DynamoDbUtil.prepItemForDdbInsert` (dynamoDbUtil.ts lines 53-93): clone
the resource, store the composite id (and tenantId when present), the vid,
system-generated meta (versionId and lastUpdated are modelled from the spec:
`generateMeta` lives in the external interface package and stamps
`meta.versionId = String(vid)` and `meta.lastUpdated = now()`, here `nowIso`),
the documentStatus, `lockEndTs = Date.now()` (`now`) and the extracted
references. A non-object non-null `meta` is treated like an absent one. -/
def prepItemForDdbInsert (resource : Obj) (id : String) (vid : Nat)
    (documentStatus : DocStatus) (tenantId : Option String) (now : Nat) (nowIso : String) :
    Obj :=
  let item := resource
  let item := match tenantId with
    | some t => setField (setField item "id" (.vstr (id ++ t))) "tenantId" (.vstr t)
    | none => setField item "id" (.vstr id)
  let item := setField item "vid" (.vnum vid)
  let vidStr := String.mk (natChars vid)
  let meta : Val := match lookupField item "meta" with
    | some (.vobj mfs) =>
      .vobj (setField (setField mfs "versionId" (.vstr vidStr)) "lastUpdated" (.vstr nowIso))
    | _ => .vobj [("versionId", .vstr vidStr), ("lastUpdated", .vstr nowIso)]
  let item := setField item "meta" meta
  let item := setField item "documentStatus" (.vstatus documentStatus)
  let item := setField item "lockEndTs" (.vnum now)
  setField item "_references" (.varr (extractReferences resource))

/-- Modelled from the spec: `DynamoDbUtil.buildItemId` is referenced by the
staging and param-builder code but its definition is not under src/; the spec
defines the storage id as the id concatenated with the tenant id when
present. -/
def buildItemId (rid : String) (tenantId : Option String) : String :=
  match tenantId with
  | some t => rid ++ t
  | none => rid

/-- Bundle operations of `BatchReadWriteRequest`. -/
inductive BundleOp where
  | create
  | update
  | delete
  | read
deriving DecidableEq, Repr

/-- A `BatchReadWriteRequest` as consumed by `generateStagingRequests`. -/
structure BatchRequest where
  operation : BundleOp
  id : Option String
  resource : Obj
  resourceType : String
  tenantId : Option String

/-- A `BatchReadWriteResponse` produced by staging (and consumed by
rollback); the id is `string | undefined` in the source (an update response
takes it from the resource, which may lack one). -/
structure BatchResponse where
  rid : Option String
  vidStr : String
  operation : BundleOp
  lastModified : String
  resource : Obj
  resourceType : Option String
  tenantId : Option String

/-- An `ItemRequest` lock entry recorded for staged creates and updates. -/
structure ItemRequest where
  rid : Option String
  vid : Option Nat
  tenantId : Option String
  resourceType : Option String
  operation : BundleOp
  isOriginalUpdateItem : Option Bool

/-- `addStagingResponseAndItemsLocked` (dynamoDbBundleServiceHelper.ts lines
253-275): build the staging response and the lock entry from the composed
response resource; `none` models the malformed-meta corner which never arises
for the resources staging builds (their meta was just stamped). -/
def addStagingResponseAndItemsLocked (operation : BundleOp) (resource : Obj)
    (tenantId : Option String) : Option (BatchResponse × ItemRequest) :=
  match lookupField resource "meta" with
  | some (.vobj m) =>
    match lookupField m "versionId", lookupField m "lastUpdated" with
    | some (.vstr vId), some (.vstr lastUp) =>
      some
        ({ rid := lookupStr resource "id"
           vidStr := vId
           operation := operation
           lastModified := lastUp
           resource := resource
           resourceType := lookupStr resource "resourceType"
           tenantId := tenantId },
         { rid := lookupStr resource "id"
           vid := parseIntJS vId
           tenantId := tenantId
           resourceType := lookupStr resource "resourceType"
           operation := operation
           isOriginalUpdateItem := if operation = .update then some false else none })
    | _, _ => none
  | _ => none

/-- The grouped output of `generateStagingRequests`: the four request arrays,
the lock entries and the staging responses. -/
structure StagingResult where
  deleteRequests : List UpdateStatusParam
  createRequests : List Obj
  updateRequests : List Obj
  readRequests : List (String × Nat)
  newLocks : List ItemRequest
  newStagingResponses : List BatchResponse

/-- The empty staging accumulator. -/
def emptyStaging : StagingResult :=
  { deleteRequests := []
    createRequests := []
    updateRequests := []
    readRequests := []
    newLocks := []
    newStagingResponses := [] }

/-- `DynamoDbBundleServiceHelper.generateStagingRequests`
(dynamoDbBundleServiceHelper.ts lines 28-176). `m` is the pre-resolved
`idToVersionId` map, `gen`/`ctr` the uuid supply (`uuidv4()` is drawn on
every create, and on an update only when neither the request nor its resource
carries an id), `now`/`nowIso` the sampled clock. `none` models the TS crash
(`vid.toString()` on `undefined`) when a delete or read target is missing
from the map or carries no id. -/
def generateStagingRequests (requests : List BatchRequest) (m : String → Option Nat)
    (gen : Nat → String) (ctr : Nat) (now : Nat) (nowIso : String) : Option StagingResult :=
  match requests with
  | [] => some emptyStaging
  | r :: rs =>
    match r.operation with
    | .create =>
      let id := match r.id with
        | some i => i
        | none => gen ctr
      let item := prepItemForDdbInsert r.resource id 1 .PENDING r.tenantId now nowIso
      let respRes := setField (setField r.resource "meta" (getMeta item)) "id" (.vstr id)
      match addStagingResponseAndItemsLocked .create respRes r.tenantId,
          generateStagingRequests rs m gen (ctr + 1) now nowIso with
      | some (resp, lock), some out =>
        some { out with
                createRequests := item :: out.createRequests
                newStagingResponses := resp :: out.newStagingResponses
                newLocks := lock :: out.newLocks }
      | _, _ => none
    | .update =>
      let idCtr : String × Nat := match r.id with
        | some i => (i, ctr)
        | none =>
          match lookupStr r.resource "id" with
          | some i => (i, ctr)
          | none => (gen ctr, ctr + 1)
      let id := idCtr.1
      let vid := (match m id with | some v => v | none => 0) + 1
      let item := prepItemForDdbInsert r.resource id vid .PENDING r.tenantId now nowIso
      let respRes := setField r.resource "meta" (getMeta item)
      match addStagingResponseAndItemsLocked .update respRes r.tenantId,
          generateStagingRequests rs m gen idCtr.2 now nowIso with
      | some (resp, lock), some out =>
        some { out with
                updateRequests := item :: out.updateRequests
                newStagingResponses := resp :: out.newStagingResponses
                newLocks := lock :: out.newLocks }
      | _, _ => none
    | .delete =>
      match r.id with
      | none => none
      | some id =>
        match m id with
        | none => none
        | some vid =>
          let p := buildUpdateDocumentStatusParam (some .LOCKED) .PENDING_DELETE id vid
            r.resourceType r.tenantId now
          let resp : BatchResponse :=
            { rid := some id
              vidStr := String.mk (natChars vid)
              operation := .delete
              lastModified := nowIso
              resource := []
              resourceType := some r.resourceType
              tenantId := none }
          match generateStagingRequests rs m gen ctr now nowIso with
          | some out =>
            some { out with
                    deleteRequests := p :: out.deleteRequests
                    newStagingResponses := resp :: out.newStagingResponses }
          | none => none
    | .read =>
      match r.id with
      | none => none
      | some id0 =>
        match m id0 with
        | none => none
        | some vid =>
          let id := buildItemId id0 r.tenantId
          let resp : BatchResponse :=
            { rid := some id
              vidStr := String.mk (natChars vid)
              operation := .read
              lastModified := ""
              resource := []
              resourceType := some r.resourceType
              tenantId := none }
          match generateStagingRequests rs m gen ctr now nowIso with
          | some out =>
            some { out with
                    readRequests := (id, vid) :: out.readRequests
                    newStagingResponses := resp :: out.newStagingResponses }
          | none => none

/-- The unconditional delete descriptor produced by
`DynamoDbParamBuilder.buildDeleteParam`: a bare key, no condition. The vid is
`none` when `parseInt` produced NaN upstream. -/
structure DeleteParam where
  keyId : Option String
  keyVid : Option Nat

/-- `DynamoDbParamBuilder.buildDeleteParam` (part_002 lines 111-127): append
the tenant id to the key and emit an unconditional Delete. `rid` is declared
`string` in TS but rollback can pass `undefined` (`none`), in which case the
`id += tenantId` concatenation coerces it to the string "undefined". -/
def buildDeleteParam (rid : Option String) (vid : Option Nat) (tenantId : Option String) :
    DeleteParam :=
  let keyId := match tenantId with
    | none => rid
    | some t => some ((match rid with | some r => r | none => "undefined") ++ t)
  { keyId := keyId
    keyVid := vid }

/-- The lock-map entry removed during rollback (vid kept as a string, as in
the source). -/
structure LockRemovalEntry where
  rid : Option String
  vidStr : String
  tenantId : Option String
  resourceType : Option String

/-- `generateDeleteLatestRecordAndItemToRemoveFromLock`
(dynamoDbBundleServiceHelper.ts lines 213-228). -/
def generateDeleteLatestRecordAndItemToRemoveFromLock (resourceType : Option String)
    (rid : Option String) (vidStr : String) (tenantId : Option String) :
    DeleteParam × LockRemovalEntry :=
  (buildDeleteParam rid (parseIntJS vidStr) tenantId,
   { rid := rid
     vidStr := vidStr
     tenantId := tenantId
     resourceType := resourceType })

/-- `DynamoDbBundleServiceHelper.generateRollbackRequests`
(dynamoDbBundleServiceHelper.ts lines 178-211): for each staged create or
update, delete the new record and drop its lock entry; reads and deletes
contribute nothing here ("no new records were made for those requests"). -/
def generateRollbackRequests (resps : List BatchResponse) :
    List DeleteParam × List LockRemovalEntry :=
  match resps with
  | [] => ([], [])
  | resp :: rest =>
    let acc := generateRollbackRequests rest
    match resp.operation with
    | .create | .update =>
      let pair := generateDeleteLatestRecordAndItemToRemoveFromLock resp.resourceType resp.rid
        resp.vidStr resp.tenantId
      (pair.1 :: acc.1, pair.2 :: acc.2)
    | _ => acc

/-- A status-revert descriptor on a staged item. -/
structure StatusRevert where
  rid : Option String
  vidStr : String
  tenantId : Option String
  fromStatus : DocStatus
  toStatus : DocStatus

/-- Modelled from the spec: the bundle coordinator (dynamoDbBundleService,
not under src/) completes rollback by transitioning every staged delete back
from PENDING_DELETE to AVAILABLE ("For staged deletes, transition
PENDING_DELETE back to AVAILABLE"). -/
def revertStagedDeletes (resps : List BatchResponse) : List StatusRevert :=
  resps.filterMap (fun resp =>
    match resp.operation with
    | .delete =>
      some { rid := resp.rid
             vidStr := resp.vidStr
             tenantId := resp.tenantId
             fromStatus := .PENDING_DELETE
             toStatus := .AVAILABLE }
    | _ => none)

/-- The complete rollback of a bundle: the helper's deletions and lock
removals plus the spec-modelled status reverts for staged deletes. -/
def rollbackBundle (resps : List BatchResponse) :
    (List DeleteParam × List LockRemovalEntry) × List StatusRevert :=
  (generateRollbackRequests resps, revertStagedDeletes resps)

/-- The parsed body of a bulk-data blob: `{link, data}`. A fetch that fails,
or a body that does not parse to this shape, is the `none` of the fetch
oracle. -/
structure BulkBlob where
  link : String
  data : List (String × Val)

/-- The `Object.entries(bulkDataFromS3.data).forEach` splice in
`attachPayloadToResource`: write every data field onto the resource. -/
def spliceFields (resource : Obj) (data : List (String × Val)) : Obj :=
  data.foldl (fun acc p => setField acc p.1 p.2) resource

/-- `HybridDataService.attachPayloadToResource`
(src/src/dataServices/hybridDataService.ts lines 44-66): when a bulkDataLink
is present, fetch and parse the blob (`fetch link = none` covers both the S3
read failing and the body failing to parse), check the blob's own link
against the stored one, splice the data fields back and drop bulkDataLink;
every failure (including the mismatch throw, caught by the same handler)
becomes ResourceNotFoundError, modelled as `.error ()`. -/
def attachPayloadToResource (fetch : String → Option BulkBlob) (resource : Obj) :
    Except Unit Obj :=
  match lookupStr resource "bulkDataLink" with
  | none => .ok resource
  | some link =>
    match fetch link with
    | none => .error ()
    | some blob =>
      if blob.link = link then
        .ok (eraseField (spliceFields resource blob.data) "bulkDataLink")
      else .error ()

/-- `HybridDataService.readResource` (hybridDataService.ts lines 130-137):
propagate the persistence-layer result, composing the payload on success. -/
def readResource (dbResult : Except Unit Obj) (fetch : String → Option BulkBlob) :
    Except Unit Obj :=
  match dbResult with
  | .error e => .error e
  | .ok r => attachPayloadToResource fetch r

/-- `HybridDataService.vReadResource` (hybridDataService.ts lines 139-146):
same composition on the version read path. -/
def vReadResource (dbResult : Except Unit Obj) (fetch : String → Option BulkBlob) :
    Except Unit Obj :=
  match dbResult with
  | .error e => .error e
  | .ok r => attachPayloadToResource fetch r

/-- The effectful operations of a hybrid write. -/
inductive EffOp where
  | s3Upload
  | ddbWrite
  | s3DeleteBlob
  | raiseErr
deriving DecidableEq, Repr

/-- Start and settlement of an effectful operation. -/
inductive EffEvent where
  | start (o : EffOp)
  | complete (o : EffOp)
deriving DecidableEq, Repr

/-- One program step: `awaitOp` starts an operation and waits for it,
`fireOp` starts it without awaiting (a dangling promise). -/
inductive AsyncStep where
  | awaitOp (o : EffOp)
  | fireOp (o : EffOp)
deriving DecidableEq, Repr

/-- Traces of a step program: an awaited operation completes before the
program continues; a fired operation stays pending and may complete at any
later point of the trace. -/
inductive Runs : List AsyncStep → List EffOp → List EffEvent → Prop where
  | done : Runs [] [] []
  | finishPending (o : EffOp) (prog : List AsyncStep) (pending : List EffOp)
      (evs : List EffEvent) (h : Runs prog (pending.erase o) evs) (hm : o ∈ pending) :
      Runs prog pending (.complete o :: evs)
  | stepAwait (o : EffOp) (rest : List AsyncStep) (pending : List EffOp)
      (evs : List EffEvent) (h : Runs rest pending evs) :
      Runs (.awaitOp o :: rest) pending (.start o :: .complete o :: evs)
  | stepFire (o : EffOp) (rest : List AsyncStep) (pending : List EffOp)
      (evs : List EffEvent) (h : Runs rest (o :: pending) evs) :
      Runs (.fireOp o :: rest) pending (.start o :: evs)

/-- `a` occurs strictly before `b` in the event list. -/
def eventBefore (evs : List EffEvent) (a b : EffEvent) : Prop :=
  ∃ i j, i < j ∧ evs.get? i = some a ∧ evs.get? j = some b

/-- The await structure of `HybridDataService.createResourceWithId`
(hybridDataService.ts lines 154-189) and `updateResource` (lines 191-235):
the S3 upload is awaited, then the DDB write is awaited; when the write
fails, the blob delete is awaited before the error is re-raised. -/
def hybridWriteSteps (insertOk : Bool) : List AsyncStep :=
  if insertOk then [.awaitOp .s3Upload, .awaitOp .ddbWrite]
  else [.awaitOp .s3Upload, .awaitOp .ddbWrite, .awaitOp .s3DeleteBlob, .awaitOp .raiseErr]

/-- The await structure of `updateResource` in src/unnamed/part_004 lines
236-255 (happy path): the S3 upload at line 238 is fired WITHOUT await, then
the DDB update is awaited. -/
def part004UpdateSteps : List AsyncStep :=
  [.fireOp .s3Upload, .awaitOp .ddbWrite]

/-- Claim C1: getMostRecentUserReadableResource over the up-to-2 most recent
versions fails with ResourceNotFound when there are no versions or the top is
DELETED, returns the top version when it is AVAILABLE, LOCKED or
PENDING_DELETE, returns the second version when the top is PENDING and a
second exists, and fails with ResourceNotFound otherwise (in particular for
PENDING with a single version). -/
theorem readMostRecent_policy (top : Obj) (rest : List Obj) (st : DocStatus)
    (hst : statusOf top = some st) :
    getMostRecentUserReadableResource [] = some (.error ())
    ∧ (st = .DELETED → getMostRecentUserReadableResource (top :: rest) = some (.error ()))
    ∧ ((st = .AVAILABLE ∨ st = .LOCKED ∨ st = .PENDING_DELETE) →
        getMostRecentUserReadableResource (top :: rest) = (cleanItem top none).map Except.ok)
    ∧ (st = .PENDING → ∀ second rest2, rest = second :: rest2 →
        getMostRecentUserReadableResource (top :: rest) = (cleanItem second none).map Except.ok)
    ∧ (st = .PENDING → rest = [] →
        getMostRecentUserReadableResource (top :: rest) = some (.error ())) := by
  refine ⟨rfl, ?_, ?_, ?_, ?_⟩
  · intro h
    subst h
    simp [getMostRecentUserReadableResource, selectUserReadableItem, hst]
  · rintro (h | h | h) <;> subst h <;>
      simp [getMostRecentUserReadableResource, selectUserReadableItem, hst, Except.map]
  · rintro h second rest2 hrest
    subst h
    subst hrest
    simp [getMostRecentUserReadableResource, selectUserReadableItem, hst, Except.map]
  · rintro h hrest
    subst h
    subst hrest
    simp [getMostRecentUserReadableResource, selectUserReadableItem, hst]

/-- Witness for C1 at a concrete AVAILABLE item. -/
theorem readMostRecent_policy_witness :
    getMostRecentUserReadableResource
        [[("id", Val.vstr "r1"), ("documentStatus", Val.vstatus .AVAILABLE)]]
      = (cleanItem [("id", Val.vstr "r1"), ("documentStatus", Val.vstatus .AVAILABLE)] none).map
          Except.ok :=
  (readMostRecent_policy [("id", Val.vstr "r1"), ("documentStatus", Val.vstatus .AVAILABLE)]
      [] .AVAILABLE rfl).2.2.1 (Or.inl rfl)

/-- Looking a key up in a concatenation tries the left part first. -/
theorem lookupField_append (o1 o2 : Obj) (k : String) :
    lookupField (o1 ++ o2) k = (lookupField o1 k).orElse (fun _ => lookupField o2 k) := by
  induction o1 with
  | nil => simp [lookupField]
  | cons p rest ih =>
    by_cases hp : p.1 = k
    · simp [lookupField, hp]
    · simp [lookupField, hp, ih]

/-- A key that no entry carries looks up to nothing. -/
theorem lookupField_eq_none_of_any_eq_false (o : Obj) (k : String)
    (h : o.any (fun p => p.1 == k) = false) : lookupField o k = none := by
  induction o with
  | nil => rfl
  | cons p rest ih =>
    simp only [List.any_cons, Bool.or_eq_false_iff, beq_eq_false_iff_ne] at h
    simp [lookupField, h.1, ih h.2]

/-- Overwrite-in-place keeps lookups of other keys. -/
theorem lookupField_overwrite_other (o : Obj) (k k2 : String) (v : Val) (h : k2 ≠ k) :
    lookupField (o.map fun p => if p.1 = k then (k, v) else p) k2 = lookupField o k2 := by
  induction o with
  | nil => rfl
  | cons p rest ih =>
    simp only [List.map_cons]
    by_cases hp : p.1 = k
    · rw [if_pos hp]
      simp only [lookupField]
      rw [if_neg (Ne.symm h), if_neg (fun hc => h (hp ▸ hc : (k : String) = k2).symm), ih]
    · rw [if_neg hp]
      simp only [lookupField, ih]

/-- Overwrite-in-place makes the key look up to the new value, provided the
key occurs. -/
theorem lookupField_overwrite_same (o : Obj) (k : String) (v : Val)
    (h : o.any (fun p => p.1 == k) = true) :
    lookupField (o.map fun p => if p.1 = k then (k, v) else p) k = some v := by
  induction o with
  | nil => simp at h
  | cons p rest ih =>
    simp only [List.map_cons]
    by_cases hp : p.1 = k
    · rw [if_pos hp]
      simp [lookupField]
    · rw [if_neg hp]
      simp only [List.any_cons, Bool.or_eq_true, beq_iff_eq] at h
      rcases h with h2 | h2
      · exact absurd h2 hp
      · simp only [lookupField]
        rw [if_neg hp, ih h2]

/-- `setField` makes its key look up to the new value. -/
theorem lookupField_setField_same (o : Obj) (k : String) (v : Val) :
    lookupField (setField o k v) k = some v := by
  unfold setField
  by_cases h : o.any (fun p => p.1 == k)
  · simp [h, lookupField_overwrite_same o k v h]
  · simp only [Bool.not_eq_true] at h
    simp [h, lookupField_append, lookupField_eq_none_of_any_eq_false o k h, lookupField]

/-- `setField` keeps lookups of other keys. -/
theorem lookupField_setField_other (o : Obj) (k k2 : String) (v : Val) (h : k2 ≠ k) :
    lookupField (setField o k v) k2 = lookupField o k2 := by
  unfold setField
  by_cases ha : o.any (fun p => p.1 == k)
  · simp [ha, lookupField_overwrite_other o k k2 v h]
  · simp only [Bool.not_eq_true] at ha
    simp [ha, lookupField_append, lookupField, Ne.symm h]

/-- `eraseField` removes its key from lookups. -/
theorem lookupField_eraseField_same (o : Obj) (k : String) :
    lookupField (eraseField o k) k = none := by
  induction o with
  | nil => rfl
  | cons p rest ih =>
    by_cases hp : p.1 = k
    · simpa [eraseField, hp] using ih
    · simpa [eraseField, lookupField, hp] using ih

/-- `eraseField` keeps lookups of other keys. -/
theorem lookupField_eraseField_other (o : Obj) (k k2 : String) (h : k2 ≠ k) :
    lookupField (eraseField o k) k2 = lookupField o k2 := by
  induction o with
  | nil => rfl
  | cons p rest ih =>
    by_cases hp : p.1 = k
    · simp [eraseField, lookupField, hp, Ne.symm h] at ih ⊢
      exact ih
    · by_cases hp2 : p.1 = k2
      · simp only [eraseField, List.filter_cons, bne_iff_ne, ne_eq, hp, not_false_iff, hp2]
        rw [if_pos h]
        simp [lookupField, hp2]
      · simp [eraseField, lookupField, hp, hp2] at ih ⊢
        exact ih

/-- Claim C2: for a non-null oldStatus, the descriptor built by
buildUpdateDocumentStatusParam is guarded by exactly "stored resourceType
equals the requested resourceType AND (stored documentStatus equals oldStatus
OR (stored lockEndTs is less than the current time AND stored documentStatus
is LOCKED, PENDING or PENDING_DELETE))", and writes lockEndTs as the current
time plus 35000 ms when the new status is LOCKED and the current time
otherwise. -/
theorem buildUpdateDocumentStatusParam_guard (old newStatus : DocStatus) (rid : String)
    (vid : Nat) (resourceType : String) (tenantId : Option String) (currentTs : Nat) :
    (∀ m : StoredMeta,
        evalCond (buildUpdateDocumentStatusParam (some old) newStatus rid vid resourceType
            tenantId currentTs).condition m = true
          ↔ (m.resourceType = resourceType
              ∧ (m.documentStatus = old
                  ∨ (m.lockEndTs < currentTs
                      ∧ (m.documentStatus = .LOCKED ∨ m.documentStatus = .PENDING
                          ∨ m.documentStatus = .PENDING_DELETE)))))
    ∧ (buildUpdateDocumentStatusParam (some old) newStatus rid vid resourceType tenantId
          currentTs).newLockEndTs
        = (if newStatus = .LOCKED then currentTs + 35000 else currentTs) := by
  constructor
  · intro m
    simp [buildUpdateDocumentStatusParam, evalCond, readFieldStr, readFieldStatus, readFieldNum,
      and_assoc, or_assoc]
  · simp [buildUpdateDocumentStatusParam, LOCK_DURATION_IN_MS]

/-- Claim C3: staging turns a create request into a PENDING insert at vid 1
(with a fresh id when the request has none), an update request into a PENDING
insert at `idToVersionId[id] + 1`, a delete request into a guarded
LOCKED-to-PENDING_DELETE status transition on the current version, and a read
request into a point-get on the current (storageId, vid). -/
theorem generateStagingRequests_stages (m : String → Option Nat) (gen : Nat → String)
    (ctr now : Nat) (nowIso : String) (rc ru rd rr : BatchRequest) (rs : List BatchRequest)
    (uid did rid0 : String) (uv dv rv : Nat)
    (hc : rc.operation = .create)
    (hu : ru.operation = .update) (huid : ru.id = some uid) (huv : m uid = some uv)
    (hd : rd.operation = .delete) (hdid : rd.id = some did) (hdv : m did = some dv)
    (hr : rr.operation = .read) (hrid : rr.id = some rid0) (hrv : m rid0 = some rv) :
    (∀ out, generateStagingRequests (rc :: rs) m gen ctr now nowIso = some out →
        out.createRequests.head? =
          some (prepItemForDdbInsert rc.resource
            (match rc.id with | some i => i | none => gen ctr) 1 .PENDING rc.tenantId now
            nowIso))
    ∧ (∀ out, generateStagingRequests (ru :: rs) m gen ctr now nowIso = some out →
        out.updateRequests.head? =
          some (prepItemForDdbInsert ru.resource uid (uv + 1) .PENDING ru.tenantId now nowIso))
    ∧ (∀ out, generateStagingRequests (rd :: rs) m gen ctr now nowIso = some out →
        out.deleteRequests.head? =
          some (buildUpdateDocumentStatusParam (some .LOCKED) .PENDING_DELETE did dv
            rd.resourceType rd.tenantId now))
    ∧ (∀ out, generateStagingRequests (rr :: rs) m gen ctr now nowIso = some out →
        out.readRequests.head? = some (buildItemId rid0 rr.tenantId, rv)) := by
  refine ⟨?_, ?_, ?_, ?_⟩
  · intro out h
    simp only [generateStagingRequests, hc] at h
    cases hA : addStagingResponseAndItemsLocked .create
        (setField (setField rc.resource "meta"
          (getMeta (prepItemForDdbInsert rc.resource
            (match rc.id with | some i => i | none => gen ctr) 1 .PENDING rc.tenantId now
            nowIso))) "id"
          (.vstr (match rc.id with | some i => i | none => gen ctr))) rc.tenantId with
    | none => rw [hA] at h; simp at h
    | some pr =>
      obtain ⟨resp, lock⟩ := pr
      cases hR : generateStagingRequests rs m gen (ctr + 1) now nowIso with
      | none => rw [hA, hR] at h; simp at h
      | some out2 =>
        rw [hA, hR] at h
        simp only [Option.some.injEq] at h
        subst h
        rfl
  · intro out h
    simp only [generateStagingRequests, hu, huid] at h
    rw [huv] at h
    cases hA : addStagingResponseAndItemsLocked .update
        (setField ru.resource "meta"
          (getMeta (prepItemForDdbInsert ru.resource uid (uv + 1) .PENDING ru.tenantId now
            nowIso))) ru.tenantId with
    | none => rw [hA] at h; simp at h
    | some pr =>
      obtain ⟨resp, lock⟩ := pr
      cases hR : generateStagingRequests rs m gen ctr now nowIso with
      | none => rw [hA, hR] at h; simp at h
      | some out2 =>
        rw [hA, hR] at h
        simp only [Option.some.injEq] at h
        subst h
        rfl
  · intro out h
    simp only [generateStagingRequests, hd, hdid, hdv] at h
    cases hR : generateStagingRequests rs m gen ctr now nowIso with
    | none => rw [hR] at h; simp at h
    | some out2 =>
      rw [hR] at h
      simp only [Option.some.injEq] at h
      subst h
      rfl
  · intro out h
    simp only [generateStagingRequests, hr, hrid, hrv] at h
    cases hR : generateStagingRequests rs m gen ctr now nowIso with
    | none => rw [hR] at h; simp at h
    | some out2 =>
      rw [hR] at h
      simp only [Option.some.injEq] at h
      subst h
      rfl

/-- Witness for C3: a single read request staged against a concrete version
map produces the point-get on the composite key. -/
theorem generateStagingRequests_stages_witness :
    (generateStagingRequests [⟨.read, some "r1", [], "Patient", some "t"⟩]
        (fun s => if s = "u1" then some 3 else if s = "d1" then some 5 else
          if s = "r1" then some 7 else none)
        (fun _ => "fresh") 0 1000 "T").bind (fun out => out.readRequests.head?)
      = some ("r1t", 7) := by
  have h4 := (generateStagingRequests_stages
      (fun s => if s = "u1" then some 3 else if s = "d1" then some 5 else
        if s = "r1" then some 7 else none)
      (fun _ => "fresh") 0 1000 "T"
      ⟨.create, none, [("a", .vstr "x")], "Patient", none⟩
      ⟨.update, some "u1", [], "Patient", none⟩
      ⟨.delete, some "d1", [], "Patient", none⟩
      ⟨.read, some "r1", [], "Patient", some "t"⟩
      [] "u1" "d1" "r1" 3 5 7 rfl rfl rfl rfl rfl rfl rfl rfl rfl rfl).2.2.2
  obtain ⟨out0, hout⟩ : ∃ o, generateStagingRequests
      [⟨.read, some "r1", [], "Patient", some "t"⟩]
      (fun s => if s = "u1" then some 3 else if s = "d1" then some 5 else
        if s = "r1" then some 7 else none)
      (fun _ => "fresh") 0 1000 "T" = some o := ⟨_, rfl⟩
  rw [hout]
  simpa using h4 out0 hout

/-- The meta object freshly stamped by prepItemForDdbInsert carries the
rendered versionId and the lastUpdated timestamp. -/
theorem getMeta_prepItemForDdbInsert (resource : Obj) (id : String) (vid : Nat)
    (st : DocStatus) (tenantId : Option String) (now : Nat) (nowIso : String) :
    ∃ mfs, getMeta (prepItemForDdbInsert resource id vid st tenantId now nowIso) = .vobj mfs
      ∧ lookupField mfs "versionId" = some (.vstr (String.mk (natChars vid)))
      ∧ lookupField mfs "lastUpdated" = some (.vstr nowIso) := by
  unfold prepItemForDdbInsert getMeta
  set base := match tenantId with
    | some t => setField (setField resource "id" (.vstr (id ++ t))) "tenantId" (.vstr t)
    | none => setField resource "id" (.vstr id) with hbase
  rw [lookupField_setField_other _ _ _ _ (by decide),
    lookupField_setField_other _ _ _ _ (by decide),
    lookupField_setField_other _ _ _ _ (by decide),
    lookupField_setField_same]
  cases hm : lookupField (setField base "vid" (.vnum vid)) "meta" with
  | none =>
    exact ⟨_, rfl, by simp [lookupField], by simp [lookupField]⟩
  | some v =>
    cases v with
    | vobj mfs =>
      refine ⟨_, rfl, ?_, ?_⟩
      · rw [lookupField_setField_other _ _ _ _ (by decide), lookupField_setField_same]
      · rw [lookupField_setField_same]
    | vnull => exact ⟨_, rfl, by simp [lookupField], by simp [lookupField]⟩
    | vbool b => exact ⟨_, rfl, by simp [lookupField], by simp [lookupField]⟩
    | vnum n => exact ⟨_, rfl, by simp [lookupField], by simp [lookupField]⟩
    | vstr s => exact ⟨_, rfl, by simp [lookupField], by simp [lookupField]⟩
    | vstatus st2 => exact ⟨_, rfl, by simp [lookupField], by simp [lookupField]⟩
    | varr xs => exact ⟨_, rfl, by simp [lookupField], by simp [lookupField]⟩

/-- The staging helper always succeeds on a resource whose meta was just
stamped by prepItemForDdbInsert. -/
theorem addStaging_on_prepared_meta (op : BundleOp) (r : Obj) (resource : Obj) (id : String)
    (vid : Nat) (st : DocStatus) (tid tenantId : Option String) (now : Nat) (nowIso : String) :
    ∃ pr, addStagingResponseAndItemsLocked op
        (setField r "meta" (getMeta (prepItemForDdbInsert resource id vid st tid now nowIso)))
        tenantId = some pr := by
  obtain ⟨mfs, hm, hv, hl⟩ :=
    getMeta_prepItemForDdbInsert resource id vid st tid now nowIso
  unfold addStagingResponseAndItemsLocked
  rw [lookupField_setField_same, hm]
  simp only [hv, hl]
  exact ⟨_, rfl⟩

set_option maxHeartbeats 1000000 in
/-- Claim C10: an update request whose id is absent from the pre-resolved map
does not fail its bundle entry: it stages a PENDING insert at vid
`(idToVersionId[id] || 0) + 1 = 1`; and when the request itself has no id,
the id falls back to the resource's embedded id and then to a fresh uuid. -/
theorem generateStagingRequests_update_fallbacks (m : String → Option Nat)
    (gen : Nat → String) (ctr now : Nat) (nowIso : String) (r1 r2 r3 : BatchRequest)
    (rs : List BatchRequest) (uid rid2 : String)
    (h1 : r1.operation = .update) (h1id : r1.id = some uid) (h1m : m uid = none)
    (h2 : r2.operation = .update) (h2id : r2.id = none)
    (h2res : lookupStr r2.resource "id" = some rid2)
    (h3 : r3.operation = .update) (h3id : r3.id = none)
    (h3res : lookupStr r3.resource "id" = none) :
    (∀ o2, generateStagingRequests rs m gen ctr now nowIso = some o2 →
        ∃ out, generateStagingRequests (r1 :: rs) m gen ctr now nowIso = some out
          ∧ out.updateRequests.head? =
              some (prepItemForDdbInsert r1.resource uid 1 .PENDING r1.tenantId now nowIso))
    ∧ (∀ o2, generateStagingRequests rs m gen ctr now nowIso = some o2 →
        ∃ out, generateStagingRequests (r2 :: rs) m gen ctr now nowIso = some out
          ∧ out.updateRequests.head? =
              some (prepItemForDdbInsert r2.resource rid2
                ((match m rid2 with | some v => v | none => 0) + 1) .PENDING r2.tenantId now
                nowIso))
    ∧ (∀ o2, generateStagingRequests rs m gen (ctr + 1) now nowIso = some o2 →
        ∃ out, generateStagingRequests (r3 :: rs) m gen ctr now nowIso = some out
          ∧ out.updateRequests.head? =
              some (prepItemForDdbInsert r3.resource (gen ctr)
                ((match m (gen ctr) with | some v => v | none => 0) + 1) .PENDING r3.tenantId
                now nowIso)) := by
  refine ⟨?_, ?_, ?_⟩
  · intro o2 ho2
    obtain ⟨pr, hpr⟩ := addStaging_on_prepared_meta .update r1.resource r1.resource uid 1
      .PENDING r1.tenantId r1.tenantId now nowIso
    obtain ⟨resp, lock⟩ := pr
    have hstep : generateStagingRequests (r1 :: rs) m gen ctr now nowIso
        = some ⟨o2.deleteRequests, o2.createRequests,
            prepItemForDdbInsert r1.resource uid 1 .PENDING r1.tenantId now nowIso
              :: o2.updateRequests,
            o2.readRequests, lock :: o2.newLocks, resp :: o2.newStagingResponses⟩ := by
      simp only [generateStagingRequests, h1, h1id, h1m]
      rw [show (match (none : Option Nat) with | some v => v | none => 0) + 1 = 1 from rfl]
      rw [hpr, ho2]
    exact ⟨_, hstep, rfl⟩
  · intro o2 ho2
    obtain ⟨pr, hpr⟩ := addStaging_on_prepared_meta .update r2.resource r2.resource rid2
      ((match m rid2 with | some v => v | none => 0) + 1) .PENDING r2.tenantId r2.tenantId now
      nowIso
    obtain ⟨resp, lock⟩ := pr
    have hstep : generateStagingRequests (r2 :: rs) m gen ctr now nowIso
        = some ⟨o2.deleteRequests, o2.createRequests,
            prepItemForDdbInsert r2.resource rid2
                ((match m rid2 with | some v => v | none => 0) + 1) .PENDING r2.tenantId now
                nowIso
              :: o2.updateRequests,
            o2.readRequests, lock :: o2.newLocks, resp :: o2.newStagingResponses⟩ := by
      simp only [generateStagingRequests, h2, h2id, h2res]
      rw [hpr, ho2]
    exact ⟨_, hstep, rfl⟩
  · intro o2 ho2
    obtain ⟨pr, hpr⟩ := addStaging_on_prepared_meta .update r3.resource r3.resource (gen ctr)
      ((match m (gen ctr) with | some v => v | none => 0) + 1) .PENDING r3.tenantId r3.tenantId
      now nowIso
    obtain ⟨resp, lock⟩ := pr
    have hstep : generateStagingRequests (r3 :: rs) m gen ctr now nowIso
        = some ⟨o2.deleteRequests, o2.createRequests,
            prepItemForDdbInsert r3.resource (gen ctr)
                ((match m (gen ctr) with | some v => v | none => 0) + 1) .PENDING r3.tenantId
                now nowIso
              :: o2.updateRequests,
            o2.readRequests, lock :: o2.newLocks, resp :: o2.newStagingResponses⟩ := by
      simp only [generateStagingRequests, h3, h3id, h3res]
      rw [hpr, ho2]
    exact ⟨_, hstep, rfl⟩

/-- Witness for C10: a concrete update whose id "u9" is absent from an empty
version map stages at vid 1. -/
theorem generateStagingRequests_update_fallbacks_witness :
    ∃ out, generateStagingRequests [⟨.update, some "u9", [("b", .vnum 2)], "Patient", none⟩]
        (fun _ => none) (fun _ => "fresh") 0 1000 "T" = some out
      ∧ out.updateRequests.head? =
          some (prepItemForDdbInsert [("b", .vnum 2)] "u9" 1 .PENDING none 1000 "T") :=
  (generateStagingRequests_update_fallbacks (fun _ => none) (fun _ => "fresh") 0 1000 "T"
      ⟨.update, some "u9", [("b", .vnum 2)], "Patient", none⟩
      ⟨.update, none, [("id", .vstr "rid")], "Patient", none⟩
      ⟨.update, none, [], "Patient", none⟩
      [] "u9" "rid" rfl rfl rfl rfl rfl rfl rfl rfl rfl).1 emptyStaging rfl

/-- Claim C4: rollback deletes the newly inserted (storageId, vid) and drops
the lock entry for every staged create or update, reverts every staged delete
from PENDING_DELETE back to AVAILABLE, and takes no action at all for read
entries (reads contribute to none of the three lists). -/
theorem rollbackBundle_actions (resps : List BatchResponse) :
    (rollbackBundle resps).1.1 = resps.filterMap (fun r =>
        match r.operation with
        | .create | .update => some (buildDeleteParam r.rid (parseIntJS r.vidStr) r.tenantId)
        | _ => none)
    ∧ (rollbackBundle resps).1.2 = resps.filterMap (fun r =>
        match r.operation with
        | .create | .update =>
          some { rid := r.rid
                 vidStr := r.vidStr
                 tenantId := r.tenantId
                 resourceType := r.resourceType }
        | _ => none)
    ∧ (rollbackBundle resps).2 = resps.filterMap (fun r =>
        match r.operation with
        | .delete =>
          some { rid := r.rid
                 vidStr := r.vidStr
                 tenantId := r.tenantId
                 fromStatus := DocStatus.PENDING_DELETE
                 toStatus := DocStatus.AVAILABLE }
        | _ => none) := by
  refine ⟨?_, ?_, rfl⟩
  · induction resps with
    | nil => rfl
    | cons r rest ih =>
      cases hop : r.operation <;>
        simp [rollbackBundle, generateRollbackRequests, hop,
          generateDeleteLatestRecordAndItemToRemoveFromLock, List.filterMap_cons] at ih ⊢ <;>
        exact ih
  · induction resps with
    | nil => rfl
    | cons r rest ih =>
      cases hop : r.operation <;>
        simp [rollbackBundle, generateRollbackRequests, hop,
          generateDeleteLatestRecordAndItemToRemoveFromLock, List.filterMap_cons] at ih ⊢ <;>
        exact ih

/-- Claim C5: a hybrid read of an item carrying a bulkDataLink either splices
the blob's data fields back (removing bulkDataLink) or fails with
ResourceNotFound — when the blob cannot be fetched or parsed, and when the
blob's internal link differs from the stored one; on success the returned
resource never retains a bulkDataLink. readResource and vReadResource both
route the stored item through this composition. -/
theorem hybridRead_composition (fetch : String → Option BulkBlob) (resource : Obj)
    (link : String) (hlink : lookupStr resource "bulkDataLink" = some link) :
    (fetch link = none → attachPayloadToResource fetch resource = .error ())
    ∧ (∀ blob, fetch link = some blob → blob.link ≠ link →
        attachPayloadToResource fetch resource = .error ())
    ∧ (∀ blob, fetch link = some blob → blob.link = link →
        attachPayloadToResource fetch resource =
          .ok (eraseField (spliceFields resource blob.data) "bulkDataLink"))
    ∧ (∀ r2, attachPayloadToResource fetch resource = .ok r2 →
        lookupField r2 "bulkDataLink" = none)
    ∧ readResource (.ok resource) fetch = attachPayloadToResource fetch resource
    ∧ vReadResource (.ok resource) fetch = attachPayloadToResource fetch resource := by
  refine ⟨?_, ?_, ?_, ?_, rfl, rfl⟩
  · intro hf
    simp [attachPayloadToResource, hlink, hf]
  · intro blob hf hne
    simp [attachPayloadToResource, hlink, hf, hne]
  · intro blob hf he
    simp [attachPayloadToResource, hlink, hf, he]
  · intro r2 h2
    simp only [attachPayloadToResource, hlink] at h2
    cases hf : fetch link with
    | none => rw [hf] at h2; exact absurd h2 (by simp)
    | some blob =>
      rw [hf] at h2
      dsimp only at h2
      by_cases he : blob.link = link
      · rw [if_pos he] at h2
        obtain rfl : eraseField (spliceFields resource blob.data) "bulkDataLink" = r2 := by
          simpa using h2
        exact lookupField_eraseField_same _ _
      · rw [if_neg he] at h2
        exact absurd h2 (by simp)

/-- Witness for C5: a concrete stored stub with a matching blob splices the
offloaded field back and drops bulkDataLink. -/
theorem hybridRead_composition_witness :
    attachPayloadToResource
        (fun l => if l = "Questionnaire/q1_u1.json" then
          some { link := "Questionnaire/q1_u1.json", data := [("item", .vstr "payload")] }
          else none)
        [("id", .vstr "q1"), ("bulkDataLink", .vstr "Questionnaire/q1_u1.json")]
      = .ok (eraseField
          (spliceFields [("id", .vstr "q1"), ("bulkDataLink", .vstr "Questionnaire/q1_u1.json")]
            [("item", .vstr "payload")])
          "bulkDataLink") :=
  ((hybridRead_composition
      (fun l => if l = "Questionnaire/q1_u1.json" then
        some { link := "Questionnaire/q1_u1.json", data := [("item", .vstr "payload")] }
        else none)
      [("id", .vstr "q1"), ("bulkDataLink", .vstr "Questionnaire/q1_u1.json")]
      "Questionnaire/q1_u1.json" rfl).2.2.1
    { link := "Questionnaire/q1_u1.json", data := [("item", .vstr "payload")] } (by simp) rfl)

/-- Claim C6, settled against the code: in the hybrid writes of
src/src/dataServices/hybridDataService.ts every schedule settles the blob
upload before the DDB write starts, and on a failed write settles the blob
delete before the error is re-raised; but in part_004's updateResource, whose
upload is fired without await, a schedule exists in which the DDB write
starts before the upload has completed. -/
theorem hybridWrite_ordering :
    (∀ ok evs, Runs (hybridWriteSteps ok) [] evs →
        eventBefore evs (.complete .s3Upload) (.start .ddbWrite))
    ∧ (∀ evs, Runs (hybridWriteSteps false) [] evs →
        eventBefore evs (.complete .s3DeleteBlob) (.start .raiseErr))
    ∧ (∃ evs, Runs part004UpdateSteps [] evs
        ∧ eventBefore evs (.start .ddbWrite) (.complete .s3Upload)) := by
  refine ⟨?_, ?_, ?_⟩
  · intro ok evs h
    cases ok with
    | true =>
      cases h with
      | finishPending o prog pending evs1 h1 hm => cases hm
      | stepAwait o rest pending evs1 h1 =>
        cases h1 with
        | finishPending o2 prog2 pending2 evs2 h2 hm2 => cases hm2
        | stepAwait o2 rest2 pending2 evs2 h2 =>
          exact ⟨1, 2, by omega, rfl, rfl⟩
    | false =>
      cases h with
      | finishPending o prog pending evs1 h1 hm => cases hm
      | stepAwait o rest pending evs1 h1 =>
        cases h1 with
        | finishPending o2 prog2 pending2 evs2 h2 hm2 => cases hm2
        | stepAwait o2 rest2 pending2 evs2 h2 =>
          exact ⟨1, 2, by omega, rfl, rfl⟩
  · intro evs h
    cases h with
    | finishPending o prog pending evs1 h1 hm => cases hm
    | stepAwait o rest pending evs1 h1 =>
      cases h1 with
      | finishPending o2 prog2 pending2 evs2 h2 hm2 => cases hm2
      | stepAwait o2 rest2 pending2 evs2 h2 =>
        cases h2 with
        | finishPending o3 prog3 pending3 evs3 h3 hm3 => cases hm3
        | stepAwait o3 rest3 pending3 evs3 h3 =>
          cases h3 with
          | finishPending o4 prog4 pending4 evs4 h4 hm4 => cases hm4
          | stepAwait o4 rest4 pending4 evs4 h4 =>
            exact ⟨5, 6, by omega, rfl, rfl⟩
  · have d1 : Runs [] [EffOp.s3Upload] [EffEvent.complete .s3Upload] :=
      .finishPending .s3Upload [] [.s3Upload] [] Runs.done (List.Mem.head _)
    have d2 : Runs [AsyncStep.awaitOp .ddbWrite] [EffOp.s3Upload]
        [EffEvent.start .ddbWrite, EffEvent.complete .ddbWrite, EffEvent.complete .s3Upload] :=
      .stepAwait _ _ _ _ d1
    have d3 : Runs part004UpdateSteps []
        [EffEvent.start .s3Upload, EffEvent.start .ddbWrite, EffEvent.complete .ddbWrite,
          EffEvent.complete .s3Upload] :=
      .stepFire _ _ _ _ d2
    exact ⟨_, d3, 1, 3, by omega, rfl, rfl⟩

/-- Witness for C6 at the concrete happy-path schedule of the src hybrid
write. -/
theorem hybridWrite_ordering_witness :
    eventBefore
        [EffEvent.start .s3Upload, EffEvent.complete .s3Upload, EffEvent.start .ddbWrite,
          EffEvent.complete .ddbWrite]
        (.complete .s3Upload) (.start .ddbWrite) :=
  hybridWrite_ordering.1 true _ (Runs.stepAwait _ _ _ _ (Runs.stepAwait _ _ _ _ Runs.done))

/-- The anchored comparison is exactly the prefix relation. -/
theorem leadsWith_iff (t s : List Char) : leadsWith t s = true ↔ t <+: s := by
  induction t generalizing s with
  | nil => simp [leadsWith]
  | cons a as ih =>
    cases s with
    | nil =>
      simp [leadsWith]
    | cons b bs =>
      rw [List.cons_prefix_cons]
      simp [leadsWith, ih]

/-- `firstOcc` returns an occurrence, and the least one. -/
theorem firstOcc_spec (t : List Char) (s : List Char) (i : Nat)
    (h : firstOcc t s = some i) :
    t <+: s.drop i ∧ ∀ j, j < i → ¬ t <+: s.drop j := by
  induction s generalizing i with
  | nil =>
    unfold firstOcc at h
    cases t with
    | nil =>
      simp at h
      subst h
      exact ⟨List.nil_prefix, fun j hj => absurd hj (by omega)⟩
    | cons a as => simp at h
  | cons c s2 ih =>
    unfold firstOcc at h
    by_cases hl : leadsWith t (c :: s2) = true
    · rw [if_pos hl] at h
      simp only [Option.some.injEq] at h
      subst h
      exact ⟨(leadsWith_iff t (c :: s2)).mp hl, fun j hj => absurd hj (by omega)⟩
    · rw [if_neg hl] at h
      cases h2 : firstOcc t s2 with
      | none => rw [h2] at h; simp at h
      | some i2 =>
        rw [h2] at h
        simp only [Option.map_some', Option.some.injEq] at h
        subst h
        obtain ⟨hp, hmin⟩ := ih i2 h2
        refine ⟨hp, ?_⟩
        intro j hj
        cases j with
        | zero =>
          intro hc
          exact hl ((leadsWith_iff t (c :: s2)).mpr hc)
        | succ j2 =>
          exact hmin j2 (by omega)

/-- Any occurrence bounds `firstOcc` from above. -/
theorem firstOcc_min (t s : List Char) (i : Nat) (h : t <+: s.drop i) :
    ∃ i0, firstOcc t s = some i0 ∧ i0 ≤ i := by
  induction s generalizing i with
  | nil =>
    rw [List.drop_nil] at h
    obtain rfl : t = [] := List.prefix_nil.mp h
    exact ⟨0, rfl, by omega⟩
  | cons c s2 ih =>
    by_cases hl : leadsWith t (c :: s2) = true
    · exact ⟨0, by unfold firstOcc; rw [if_pos hl], by omega⟩
    · cases i with
      | zero =>
        rw [List.drop_zero] at h
        exact absurd ((leadsWith_iff t (c :: s2)).mpr h) hl
      | succ i2 =>
        rw [List.drop_succ_cons] at h
        obtain ⟨i0, hfo, hle⟩ := ih i2 h
        refine ⟨i0 + 1, ?_, by omega⟩
        unfold firstOcc
        rw [if_neg hl, hfo]
        rfl

/-- Claim C9 (amended): decoding the composite id `id ++ tenantId` recovers
`id` exactly when the tenant id has no occurrence in the composite id
starting before `id.length` (occurrences straddling the boundary count, not
only substrings of `id`); otherwise the decoded id is a strict prefix of the
original. -/
theorem cleanIdChars_roundTrip (id t : List Char) (ht : t ≠ []) :
    (cleanIdChars (id ++ t) t = id ↔ ∀ p, p < id.length → ¬ t <+: (id ++ t).drop p)
    ∧ ((∃ p, p < id.length ∧ t <+: (id ++ t).drop p) →
        cleanIdChars (id ++ t) t <+: id ∧ cleanIdChars (id ++ t) t ≠ id) := by
  have hocc : t <+: (id ++ t).drop id.length := by
    rw [List.drop_left]
  obtain ⟨i0, hfo, hle⟩ := firstOcc_min t (id ++ t) id.length hocc
  obtain ⟨hpre, hmin⟩ := firstOcc_spec t (id ++ t) i0 hfo
  have hclean : cleanIdChars (id ++ t) t = (id ++ t).take i0 := by
    unfold cleanIdChars
    rw [hfo]
  constructor
  · constructor
    · intro heq
      rw [hclean] at heq
      have hlen : i0 = id.length := by
        have := congrArg List.length heq
        rw [List.length_take, List.length_append] at this
        omega
      intro p hp
      exact hmin p (by omega)
    · intro hnone
      have hlen : i0 = id.length := by
        rcases Nat.lt_or_ge i0 id.length with hlt | hge
        · exact absurd hpre (hnone i0 hlt)
        · omega
      rw [hclean, hlen, List.take_left]
  · rintro ⟨p, hp, hoccp⟩
    have hi0p : i0 ≤ p := by
      by_contra hcon
      exact hmin p (by omega) hoccp
    have hi0 : i0 < id.length := by omega
    rw [hclean, List.take_append_of_le_length (by omega)]
    exact ⟨List.take_prefix i0 id, by
      intro heq
      have := congrArg List.length heq
      rw [List.length_take] at this
      omega⟩

/-- Witness for C9 (amended) at a clean composite: id "p1" with tenant "t1"
round-trips. -/
theorem cleanIdChars_roundTrip_witness :
    cleanIdChars ("p1".data ++ "t1".data) "t1".data = "p1".data :=
  ((cleanIdChars_roundTrip "p1".data "t1".data (by decide)).1).mpr (by decide)

/-- Counterexample to C9 as stated: for id "xa" and tenantId "aa" the tenant
id is not a substring of the id, yet decoding the composite "xaaa" yields "x",
a strict prefix — the claimed equivalence fails because the occurrence
straddles the id/tenant boundary. -/
theorem cleanIdChars_roundTrip_counterexample :
    ¬ (cleanIdChars (['x', 'a'] ++ ['a', 'a']) ['a', 'a'] = ['x', 'a']
        ↔ ¬ (['a', 'a'] <:+: ['x', 'a'])) := by
  decide

/-- Claim C8 (amended): cleanItem removes exactly documentStatus, lockEndTs,
vid and _references; with a (string) tenantId present it truncates the id at
the first occurrence of the tenant id and drops the tenantId field unless the
projection expression mentions it; in ALL cases the id is additionally
truncated at the first SEPARATOR; every other field is unchanged. -/
theorem cleanItem_spec (item : Obj) (projectionExpression : Option String) (sId : String)
    (hid : lookupField item "id" = some (.vstr sId))
    (htid : lookupField item "tenantId" = none
      ∨ ∃ t, lookupField item "tenantId" = some (.vstr t)) :
    ∃ c, cleanItem item projectionExpression = some c
      ∧ lookupField c "documentStatus" = none
      ∧ lookupField c "lockEndTs" = none
      ∧ lookupField c "vid" = none
      ∧ lookupField c "_references" = none
      ∧ (∀ k, k ∉ ["documentStatus", "lockEndTs", "vid", "_references", "tenantId", "id"] →
          lookupField c k = lookupField item k)
      ∧ (lookupField item "tenantId" = none →
          lookupField c "id" = some (.vstr (String.mk (splitHead sId.data)))
          ∧ lookupField c "tenantId" = none)
      ∧ (∀ t, lookupField item "tenantId" = some (.vstr t) →
          lookupField c "id" =
            some (.vstr (String.mk (splitHead (cleanIdChars sId.data t.data))))
          ∧ lookupField c "tenantId" =
            (if projectionMentionsTenantId projectionExpression then some (.vstr t)
             else none)) := by
  have hne1 : ("id" : String) ≠ "documentStatus" := by decide
  have hne2 : ("id" : String) ≠ "lockEndTs" := by decide
  have hne3 : ("id" : String) ≠ "vid" := by decide
  have hne4 : ("id" : String) ≠ "_references" := by decide
  have hte1 : ("tenantId" : String) ≠ "documentStatus" := by decide
  have hte2 : ("tenantId" : String) ≠ "lockEndTs" := by decide
  have hte3 : ("tenantId" : String) ≠ "vid" := by decide
  have hte4 : ("tenantId" : String) ≠ "_references" := by decide
  set c0 := eraseField (eraseField (eraseField (eraseField item "documentStatus") "lockEndTs")
    "vid") "_references" with hc0
  have hc0id : lookupField c0 "id" = some (.vstr sId) := by
    rw [hc0, lookupField_eraseField_other _ _ _ hne4, lookupField_eraseField_other _ _ _ hne3,
      lookupField_eraseField_other _ _ _ hne2, lookupField_eraseField_other _ _ _ hne1, hid]
  have hc0tid : lookupField c0 "tenantId" = lookupField item "tenantId" := by
    rw [hc0, lookupField_eraseField_other _ _ _ hte4, lookupField_eraseField_other _ _ _ hte3,
      lookupField_eraseField_other _ _ _ hte2, lookupField_eraseField_other _ _ _ hte1]
  have hc0ds : lookupField c0 "documentStatus" = none := by
    rw [hc0, lookupField_eraseField_other _ _ _ (by decide),
      lookupField_eraseField_other _ _ _ (by decide),
      lookupField_eraseField_other _ _ _ (by decide), lookupField_eraseField_same]
  have hc0le : lookupField c0 "lockEndTs" = none := by
    rw [hc0, lookupField_eraseField_other _ _ _ (by decide),
      lookupField_eraseField_other _ _ _ (by decide), lookupField_eraseField_same]
  have hc0vid : lookupField c0 "vid" = none := by
    rw [hc0, lookupField_eraseField_other _ _ _ (by decide), lookupField_eraseField_same]
  have hc0ref : lookupField c0 "_references" = none := by
    rw [hc0, lookupField_eraseField_same]
  have hc0other : ∀ k,
      k ∉ (["documentStatus", "lockEndTs", "vid", "_references", "tenantId", "id"] :
        List String) → lookupField c0 k = lookupField item k := by
    intro k hk
    have hk1 : k ≠ "documentStatus" := fun hkk => hk (by simp [hkk])
    have hk2 : k ≠ "lockEndTs" := fun hkk => hk (by simp [hkk])
    have hk3 : k ≠ "vid" := fun hkk => hk (by simp [hkk])
    have hk4 : k ≠ "_references" := fun hkk => hk (by simp [hkk])
    rw [hc0, lookupField_eraseField_other _ _ _ hk4, lookupField_eraseField_other _ _ _ hk3,
      lookupField_eraseField_other _ _ _ hk2, lookupField_eraseField_other _ _ _ hk1]
  rcases htid with htid | ⟨t, htid⟩
  · have hhas : hasTenantId c0 = false := by
      unfold hasTenantId
      rw [hc0tid, htid]
      rfl
    refine ⟨setField c0 "id" (.vstr (String.mk (splitHead sId.data))), ?_, ?_, ?_, ?_, ?_, ?_,
      ?_, ?_⟩
    · unfold cleanItem
      rw [← hc0]
      simp only [hhas, Bool.false_eq_true, if_false, hc0id]
    · rw [lookupField_setField_other _ _ _ _ (Ne.symm hne1), hc0ds]
    · rw [lookupField_setField_other _ _ _ _ (Ne.symm hne2), hc0le]
    · rw [lookupField_setField_other _ _ _ _ (Ne.symm hne3), hc0vid]
    · rw [lookupField_setField_other _ _ _ _ (Ne.symm hne4), hc0ref]
    · intro k hk
      have hkid : k ≠ "id" := fun hkk => hk (by simp [hkk])
      rw [lookupField_setField_other _ _ _ _ hkid, hc0other k hk]
    · intro _
      refine ⟨lookupField_setField_same _ _ _, ?_⟩
      rw [lookupField_setField_other _ _ _ _ (by decide), hc0tid, htid]
    · intro t2 ht2
      rw [htid] at ht2
      exact absurd ht2 (by simp)
  · have hhas : hasTenantId c0 = true := by
      unfold hasTenantId
      rw [hc0tid, htid]
      rfl
    have hcid : cleanItemId c0
        = some (setField c0 "id" (.vstr (String.mk (cleanIdChars sId.data t.data)))) := by
      unfold cleanItemId
      rw [hc0tid, htid, hc0id]
    by_cases hproj : projectionMentionsTenantId projectionExpression = true
    · set c2 := setField c0 "id" (.vstr (String.mk (cleanIdChars sId.data t.data))) with hc2
      have hc2id : lookupField c2 "id"
          = some (.vstr (String.mk (cleanIdChars sId.data t.data))) :=
        lookupField_setField_same _ _ _
      refine ⟨setField c2 "id"
        (.vstr (String.mk (splitHead (cleanIdChars sId.data t.data)))), ?_, ?_, ?_, ?_, ?_, ?_,
        ?_, ?_⟩
      · unfold cleanItem
        rw [← hc0]
        simp only [hhas, if_true, hcid, hproj, hc2id]
      · rw [lookupField_setField_other _ _ _ _ (Ne.symm hne1), hc2,
          lookupField_setField_other _ _ _ _ (Ne.symm hne1), hc0ds]
      · rw [lookupField_setField_other _ _ _ _ (Ne.symm hne2), hc2,
          lookupField_setField_other _ _ _ _ (Ne.symm hne2), hc0le]
      · rw [lookupField_setField_other _ _ _ _ (Ne.symm hne3), hc2,
          lookupField_setField_other _ _ _ _ (Ne.symm hne3), hc0vid]
      · rw [lookupField_setField_other _ _ _ _ (Ne.symm hne4), hc2,
          lookupField_setField_other _ _ _ _ (Ne.symm hne4), hc0ref]
      · intro k hk
        have hkid : k ≠ "id" := fun hkk => hk (by simp [hkk])
        rw [lookupField_setField_other _ _ _ _ hkid, hc2,
          lookupField_setField_other _ _ _ _ hkid, hc0other k hk]
      · intro hnone
        rw [htid] at hnone
        exact absurd hnone (by simp)
      · intro t2 ht2
        rw [htid] at ht2
        simp only [Option.some.injEq, Val.vstr.injEq] at ht2
        subst ht2
        refine ⟨lookupField_setField_same _ _ _, ?_⟩
        rw [lookupField_setField_other _ _ _ _ (by decide), hc2,
          lookupField_setField_other _ _ _ _ (by decide), hc0tid, htid, if_pos hproj]
    · set c2 := eraseField (setField c0 "id"
        (.vstr (String.mk (cleanIdChars sId.data t.data)))) "tenantId" with hc2
      have hc2id : lookupField c2 "id"
          = some (.vstr (String.mk (cleanIdChars sId.data t.data))) := by
        rw [hc2, lookupField_eraseField_other _ _ _ (by decide), lookupField_setField_same]
      refine ⟨setField c2 "id"
        (.vstr (String.mk (splitHead (cleanIdChars sId.data t.data)))), ?_, ?_, ?_, ?_, ?_, ?_,
        ?_, ?_⟩
      · unfold cleanItem
        rw [← hc0]
        simp only [hhas, if_true, hcid, hproj, Bool.false_eq_true, if_false]
        rw [← hc2]
        simp only [hc2id]
      · rw [lookupField_setField_other _ _ _ _ (Ne.symm hne1), hc2,
          lookupField_eraseField_other _ _ _ (by decide),
          lookupField_setField_other _ _ _ _ (Ne.symm hne1), hc0ds]
      · rw [lookupField_setField_other _ _ _ _ (Ne.symm hne2), hc2,
          lookupField_eraseField_other _ _ _ (by decide),
          lookupField_setField_other _ _ _ _ (Ne.symm hne2), hc0le]
      · rw [lookupField_setField_other _ _ _ _ (Ne.symm hne3), hc2,
          lookupField_eraseField_other _ _ _ (by decide),
          lookupField_setField_other _ _ _ _ (Ne.symm hne3), hc0vid]
      · rw [lookupField_setField_other _ _ _ _ (Ne.symm hne4), hc2,
          lookupField_eraseField_other _ _ _ (by decide),
          lookupField_setField_other _ _ _ _ (Ne.symm hne4), hc0ref]
      · intro k hk
        have hkid : k ≠ "id" := fun hkk => hk (by simp [hkk])
        have hktid : k ≠ "tenantId" := fun hkk => hk (by simp [hkk])
        rw [lookupField_setField_other _ _ _ _ hkid, hc2,
          lookupField_eraseField_other _ _ _ hktid,
          lookupField_setField_other _ _ _ _ hkid, hc0other k hk]
      · intro hnone
        rw [htid] at hnone
        exact absurd hnone (by simp)
      · intro t2 ht2
        rw [htid] at ht2
        simp only [Option.some.injEq, Val.vstr.injEq] at ht2
        subst ht2
        refine ⟨lookupField_setField_same _ _ _, ?_⟩
        rw [lookupField_setField_other _ _ _ _ (by decide), hc2, lookupField_eraseField_same]
        simp [hproj]

/-- Witness for C8 (amended) at a concrete multi-tenant item. -/
theorem cleanItem_spec_witness :
    ∃ c, cleanItem
        [("id", Val.vstr "p1t1"), ("tenantId", Val.vstr "t1"), ("vid", Val.vnum 2),
          ("documentStatus", Val.vstatus .AVAILABLE), ("name", Val.vstr "n")] none = some c
      ∧ lookupField c "documentStatus" = none
      ∧ lookupField c "name" = some (Val.vstr "n") := by
  obtain ⟨c, h1, h2, _, _, _, hother, _, _⟩ := cleanItem_spec
    [("id", Val.vstr "p1t1"), ("tenantId", Val.vstr "t1"), ("vid", Val.vnum 2),
      ("documentStatus", Val.vstatus .AVAILABLE), ("name", Val.vstr "n")] none "p1t1" rfl
    (Or.inr ⟨"t1", rfl⟩)
  exact ⟨c, h1, h2, by rw [hother "name" (by decide)]; rfl⟩

/-- Counterexample to C8 as stated: without any tenantId, cleanItem still
rewrites the id, truncating "abc_def" at the SEPARATOR to "abc", so "every
other field of the item is unchanged" fails for the id field. -/
theorem cleanItem_id_split_counterexample :
    cleanItem [("id", Val.vstr "abc_def"), ("name", Val.vstr "n")] none
      = some [("id", Val.vstr "abc"), ("name", Val.vstr "n")]
    ∧ Val.vstr "abc" ≠ Val.vstr "abc_def" := by
  constructor
  · rfl
  · intro h
    injection h with h2
    exact absurd h2 (by decide)

/-- `Char.ofNat` round-trips below the surrogate range. -/
theorem toNat_ofNat_small (n : Nat) (h : n < 0xD800) : (Char.ofNat n).toNat = n := by
  unfold Char.ofNat
  rw [dif_pos (Or.inl h)]
  rfl

/-- Decimal renderings consist of digit characters. -/
theorem natChars_digits (n : Nat) : ∀ c ∈ natChars n, 48 ≤ c.toNat ∧ c.toNat ≤ 57 := by
  induction n using Nat.strong_induction_on with
  | _ n ih =>
    intro c hc
    unfold natChars at hc
    by_cases h : n < 10
    · rw [if_pos h] at hc
      simp only [List.mem_singleton] at hc
      subst hc
      rw [toNat_ofNat_small (48 + n) (by omega)]
      omega
    · rw [if_neg h] at hc
      rcases List.mem_append.mp hc with hc2 | hc2
      · exact ih (n / 10) (Nat.div_lt_self (by omega) (by omega)) c hc2
      · simp only [List.mem_singleton] at hc2
        subst hc2
        rw [toNat_ofNat_small (48 + n % 10) (by omega)]
        omega

/-- Decimal renderings are never empty. -/
theorem natChars_ne_nil (n : Nat) : natChars n ≠ [] := by
  unfold natChars
  by_cases h : n < 10
  · rw [if_pos h]
    simp
  · rw [if_neg h]
    simp

/-- Decimal renderings are dot-free. -/
theorem natChars_dotFree (n : Nat) : (natChars n).all (fun c => c != '.') = true := by
  rw [List.all_eq_true]
  intro c hc
  have hd := natChars_digits n c hc
  simp only [bne_iff_ne, ne_eq]
  intro he
  rw [he] at hd
  revert hd
  decide

/-- A decimal rendering is never the word "reference". -/
theorem natChars_ne_refChars (n : Nat) : natChars n ≠ refChars := by
  intro h
  have hr : ('r' : Char) ∈ natChars n := by
    rw [h]
    decide
  have := natChars_digits n 'r' hr
  revert this
  decide

/-- ".reference" is never a suffix of a dot-free key. -/
theorem dotRef_not_suffix (k : List Char) (hk : k.all (fun c => c != '.') = true) :
    dotReference.isSuffixOf k = false := by
  by_contra h
  rw [Bool.not_eq_false] at h
  have hs : dotReference <:+ k := List.isSuffixOf_iff_suffix.mp h
  have hdot : '.' ∈ k := hs.subset (by decide)
  rw [List.all_eq_true] at hk
  have := hk '.' hdot
  revert this
  decide

/-- ".reference" is a suffix of `p ++ "." ++ k` for dot-free `k` exactly when
`k` is the word "reference" — independently of `p`, which also covers
occurrences straddling segment boundaries. -/
theorem dotRef_suffix_join (p k : List Char) (hk : k.all (fun c => c != '.') = true) :
    (dotReference.isSuffixOf (p ++ '.' :: k) = true ↔ k = refChars) := by
  rw [List.isSuffixOf_iff_suffix]
  have hd : dotReference = '.' :: refChars := rfl
  constructor
  · intro h
    rw [hd] at h
    have h2 : '.' :: k <:+ p ++ '.' :: k := ⟨p, rfl⟩
    rcases List.suffix_or_suffix_of_suffix h h2 with hc | hc
    · rcases List.suffix_cons_iff.mp hc with he | hc2
      · injection he with _ h3
        exact h3.symm
      · exfalso
        have hdot : '.' ∈ k := hc2.subset (by decide)
        rw [List.all_eq_true] at hk
        have := hk '.' hdot
        revert this
        decide
    · rcases List.suffix_cons_iff.mp hc with he | hc2
      · injection he
      · exfalso
        have hdot : '.' ∈ refChars := hc2.subset (List.mem_cons_self _ _)
        revert hdot
        decide
  · rintro rfl
    rw [hd]
    exact ⟨p, rfl⟩

/-- The Bool form of the previous suffix characterization. -/
theorem dotRef_suffix_join_eq (p k : List Char) (hk : k.all (fun c => c != '.') = true) :
    dotReference.isSuffixOf (p ++ '.' :: k) = (k == refChars) := by
  by_cases he : k = refChars
  · rw [(dotRef_suffix_join p k hk).mpr he]
    simp [he]
  · have h1 : ¬ dotReference.isSuffixOf (p ++ '.' :: k) = true :=
      fun hh => he ((dotRef_suffix_join p k hk).mp hh)
    rw [Bool.not_eq_true] at h1
    rw [h1]
    simp [he]

/-- `refsOf` distributes over concatenation. -/
theorem refsOf_append (a b : List (List Char × Val)) :
    refsOf (a ++ b) = refsOf a ++ refsOf b := by
  simp [refsOf]

/-- `joinKey` under a non-empty parent key is dotted concatenation. -/
theorem joinKey_of_ne_nil (p k : List Char) (hp : p ≠ []) :
    joinKey p k = p ++ '.' :: k := by
  cases p with
  | nil => exact absurd rfl hp
  | cons a p2 => rfl

mutual

/-- Below the top level, the filtered flattening of a value yields the value
itself (when its key path ends in ".reference" and it is a leaf) plus the
references collected inside it. -/
theorem refsOf_flattenVal (v : Val) (hv : keysOk v = true) (p : List Char) (hp : p ≠ []) :
    refsOf (flattenVal p v)
      = (if dotReference.isSuffixOf p && leafVal v then [v] else []) ++ collectRefs v := by
  cases v with
  | vobj fs =>
    cases fs with
    | nil =>
      show refsOf [(p, .vobj [])] = _
      cases hs : dotReference.isSuffixOf p <;>
        simp [refsOf, List.filter, hs, leafVal, collectRefs, collectRefsFields]
    | cons f fs2 =>
      have h := refsOf_flattenFields (f :: fs2) hv p hp
      show refsOf (flattenFields p (f :: fs2)) = _
      rw [h]
      simp [leafVal, collectRefs]
  | varr xs =>
    cases xs with
    | nil =>
      show refsOf [(p, .varr [])] = _
      cases hs : dotReference.isSuffixOf p <;>
        simp [refsOf, List.filter, hs, leafVal, collectRefs, collectRefsElems]
    | cons x xs2 =>
      have h := refsOf_flattenElems (x :: xs2) hv p 0 hp
      show refsOf (flattenElems p 0 (x :: xs2)) = _
      rw [h]
      simp [leafVal, collectRefs]
  | vnull =>
    show refsOf [(p, .vnull)] = _
    cases hs : dotReference.isSuffixOf p <;>
      simp [refsOf, List.filter, hs, leafVal, collectRefs]
  | vbool b =>
    show refsOf [(p, .vbool b)] = _
    cases hs : dotReference.isSuffixOf p <;>
      simp [refsOf, List.filter, hs, leafVal, collectRefs]
  | vnum n =>
    show refsOf [(p, .vnum n)] = _
    cases hs : dotReference.isSuffixOf p <;>
      simp [refsOf, List.filter, hs, leafVal, collectRefs]
  | vstr s =>
    show refsOf [(p, .vstr s)] = _
    cases hs : dotReference.isSuffixOf p <;>
      simp [refsOf, List.filter, hs, leafVal, collectRefs]
  | vstatus st =>
    show refsOf [(p, .vstatus st)] = _
    cases hs : dotReference.isSuffixOf p <;>
      simp [refsOf, List.filter, hs, leafVal, collectRefs]

/-- Below the top level, the filtered flattening of an object's fields is the
path-level reference collection. -/
theorem refsOf_flattenFields (fs : List (String × Val)) (hf : fieldsOk fs = true)
    (p : List Char) (hp : p ≠ []) :
    refsOf (flattenFields p fs) = collectRefsFields fs := by
  cases fs with
  | nil => rfl
  | cons kv rest =>
    obtain ⟨k, v⟩ := kv
    simp only [fieldsOk, Bool.and_eq_true] at hf
    obtain ⟨⟨⟨hkne, hkdot⟩, hkv⟩, hrest⟩ := hf
    show refsOf (flattenVal (joinKey p k.data) v ++ flattenFields p rest) = _
    rw [refsOf_append, joinKey_of_ne_nil p k.data hp,
      refsOf_flattenVal v hkv (p ++ '.' :: k.data) (by simp),
      refsOf_flattenFields rest hrest p hp, dotRef_suffix_join_eq p k.data hkdot]
    show _ = (if (k.data == refChars) && leafVal v then [v] else []) ++ collectRefs v
      ++ collectRefsFields rest
    rw [List.append_assoc]

/-- Below the top level, the filtered flattening of an array's elements is the
path-level reference collection: a decimal index key never ends in
".reference". -/
theorem refsOf_flattenElems (xs : List Val) (hx : elemsOk xs = true) (p : List Char)
    (i : Nat) (hp : p ≠ []) :
    refsOf (flattenElems p i xs) = collectRefsElems xs := by
  cases xs with
  | nil => rfl
  | cons v rest =>
    simp only [elemsOk, Bool.and_eq_true] at hx
    obtain ⟨hkv, hrest⟩ := hx
    show refsOf (flattenVal (joinKey p (natChars i)) v ++ flattenElems p (i + 1) rest) = _
    rw [refsOf_append, joinKey_of_ne_nil p (natChars i) hp,
      refsOf_flattenVal v hkv (p ++ '.' :: natChars i) (by simp),
      refsOf_flattenElems rest hrest p (i + 1) hp,
      dotRef_suffix_join_eq p (natChars i) (natChars_dotFree i)]
    have hne : (natChars i == refChars) = false := by
      simp [natChars_ne_refChars i]
    rw [hne]
    show [] ++ collectRefs v ++ collectRefsElems rest = _
    simp [collectRefsElems]

end

/-- At the top level, flattening keys are the bare field names, which are
dot-free, so no top-level field is ever collected; everything below is. -/
theorem refsOf_flattenFields_top (fs : List (String × Val)) (hf : fieldsOk fs = true) :
    refsOf (flattenFields [] fs) = specReferences fs := by
  induction fs with
  | nil => rfl
  | cons kv rest ih =>
    obtain ⟨k, v⟩ := kv
    simp only [fieldsOk, Bool.and_eq_true] at hf
    obtain ⟨⟨⟨hkne, hkdot⟩, hkv⟩, hrest⟩ := hf
    have hknil : k.data ≠ [] := by
      intro hk
      rw [hk] at hkne
      revert hkne
      decide
    show refsOf (flattenVal (joinKey [] k.data) v ++ flattenFields [] rest) = _
    rw [refsOf_append, show joinKey [] k.data = k.data from rfl,
      refsOf_flattenVal v hkv k.data hknil, ih hrest, dotRef_not_suffix k.data hkdot]
    show [] ++ collectRefs v ++ specReferences rest = _
    simp [specReferences]

/-- Claim C7 (amended): for every resource whose object keys are non-empty
and dot-free, the stored _references equal the values at every dotted path
whose terminal segment is "reference" and which has at least two segments
(equivalently, keys ending in ".reference"); a top-level field named
"reference" is NOT collected. -/
theorem extractReferences_spec (r : Obj) (h : fieldsOk r = true) :
    extractReferences r = specReferences r := by
  have h2 := refsOf_flattenFields_top r h
  unfold refsOf at h2
  unfold extractReferences
  exact h2

/-- Witness for C7 (amended) at a nested reference. -/
theorem extractReferences_spec_witness :
    extractReferences [("subject", Val.vobj [("reference", Val.vstr "Patient/1")])]
      = specReferences [("subject", Val.vobj [("reference", Val.vstr "Patient/1")])] :=
  extractReferences_spec [("subject", Val.vobj [("reference", Val.vstr "Patient/1")])]
    (by decide)

/-- Counterexample to C7 as stated: a TOP-LEVEL field named "reference" has
the dotless flattened key "reference", which does not end in ".reference", so
the code collects nothing, while the claim's collection (terminal path
segment equal to "reference", top level included) contains the value. -/
theorem extractReferences_top_level_counterexample :
    extractReferences [("reference", Val.vstr "Patient/1")] = []
    ∧ claimReferences [("reference", Val.vstr "Patient/1")] = [Val.vstr "Patient/1"]
    ∧ ([] : List Val) ≠ [Val.vstr "Patient/1"] :=
  ⟨rfl, rfl, by simp⟩

end DDB
